import Mathlib

/-!
Shallow embedding of the table-configuration resolution routine of
`src/app/main.py` (lines 75-155) and proofs about it.

The routine takes the raw YAML table configuration (`BASE_CONFIG`, which is
either `None` or a mapping from display names to option records) together
with the schema-reflected tables (`storage.tables.values()`), and produces
the list handed to the admin-app factory: either the discovered tables
unchanged (when the configuration is `None`) or one `TableConfig` descriptor
per retained table.  A final loop rebinds every output table to the
application (Postgres) database engine.

Python string primitives (`str.lower`, `str.capitalize`) are modelled for
ASCII, which is where they agree with Lean's `Char.toLower` / `Char.toUpper`.
Python dictionaries are modelled as association lists (iteration order is
key-insertion order; keys are unique, though the model does not need that);
a failing dictionary subscript is a `KeyError`.  The `try/except TypeError`
blocks around the three membership-filter fields are modelled by the
`Option`-valued fields of the options record: an absent key makes the
membership test `x in None` raise `TypeError`, which the code catches and
turns into the value `None`.  Exceptions that the code does not catch
(`KeyError` from `BASE_CONFIG[...]`) surface in the `Except` error channel.
-/

namespace PiccoloAdminDocker

/-- The two database engines opened by the process: the SQLite engine used
for the auth tables and the Postgres engine of the application database. -/
inductive Engine where
  | auth
  | application
deriving DecidableEq, Repr

/-- A column descriptor of a schema-reflected table (`column._meta.name`). -/
structure Column where
  name : String
deriving DecidableEq, Repr

/-- A schema-reflected table handle: its name (`table._meta.tablename`), its
ordered column sequence (`table._meta.columns`) and its current database
engine binding (`table._meta._db`). -/
structure DiscoveredTable where
  tablename : String
  columns : List Column
  db : Engine
deriving DecidableEq, Repr

/-- One options record of the YAML `tables` mapping: each field is present
or absent.  A membership-list field that is absent means the corresponding
`.get(..., None)` returns `None`. -/
structure OptionsRecord where
  visible_columns : Option (List String)
  visible_filters : Option (List String)
  rich_text_columns : Option (List String)
  link_column : Option String
  menu_group : Option String
deriving DecidableEq, Repr

/-- The raw `tables` configuration when present: a mapping from display
name to options record, modelled as an association list in key order. -/
abbrev RawTableConfig := List (String × OptionsRecord)

/-- The `TableConfig` descriptor built for each retained table. -/
structure TableViewDescriptor where
  table : DiscoveredTable
  visible_columns : Option (List Column)
  visible_filters : Option (List Column)
  rich_text_columns : Option (List Column)
  link_column : Option Column
  menu_group : Option String
deriving DecidableEq, Repr

/-- An element of the list handed to `create_admin`: a bare table (the
null-configuration branch) or a descriptor (the filtering branch). -/
inductive AdminEntry where
  | plain (table : DiscoveredTable)
  | config (descriptor : TableViewDescriptor)
deriving DecidableEq, Repr

/-- The exception a dictionary subscript with a missing key raises; nothing
in the routine catches it. -/
inductive PyError where
  | keyError (key : String)
deriving DecidableEq, Repr

/-- Python `str.lower()` for ASCII text: every character lower-cased. -/
def pyLower (s : String) : String :=
  String.mk (s.toList.map Char.toLower)

/-- Python `str.capitalize()` for ASCII text: first character upper-cased,
every later character lower-cased. -/
def pyCapitalize (s : String) : String :=
  match s.toList with
  | [] => ""
  | c :: cs => String.mk (c.toUpper :: cs.map Char.toLower)

/-- Dictionary lookup `cfg[key]`: the value of the first matching key, or
`none` (a `KeyError` at the use site) when no key matches. -/
def configLookup (cfg : RawTableConfig) (key : String) : Option OptionsRecord :=
  match cfg with
  | [] => none
  | (k, v) :: rest => if k = key then some v else configLookup rest key

/-- Line 76: `tables_to_show = [table.lower() for table in BASE_CONFIG]`. -/
def tablesToShow (cfg : RawTableConfig) : List String :=
  cfg.map (fun entry => pyLower entry.1)

/-- Lines 77-81: the discovered tables whose `tablename` occurs in
`tables_to_show`, in discovery order. -/
def foundTables (cfg : RawTableConfig) (tables : List DiscoveredTable) :
    List DiscoveredTable :=
  tables.filter (fun t => decide (t.tablename ∈ tablesToShow cfg))

/-- Lines 86-120, one membership-filter field: with the key absent the
membership test raises `TypeError`, caught and turned into `None`; with a
list present, the table's columns whose name occurs in the list, in the
table's own column order. -/
def resolveColumns (cols : List Column) (names : Option (List String)) :
    Option (List Column) :=
  match names with
  | none => none
  | some ns => some (cols.filter (fun col => decide (col.name ∈ ns)))

/-- Lines 122-132: the first column whose name equals the configured
`link_column` value, `None` on `IndexError`; with the key absent the
comparison `name == None` is false for every column, so the same
`IndexError` path yields `None`. -/
def resolveLink (cols : List Column) (linkName : Option String) :
    Option Column :=
  match linkName with
  | none => none
  | some n => (cols.filter (fun col => decide (col.name = n))).head?

/-- Lines 86-147: the descriptor built from one table and its options
record once the record has been found. -/
def resolvedDescriptor (table : DiscoveredTable) (opts : OptionsRecord) :
    TableViewDescriptor :=
  { table := table
    visible_columns := resolveColumns table.columns opts.visible_columns
    visible_filters := resolveColumns table.columns opts.visible_filters
    rich_text_columns := resolveColumns table.columns opts.rich_text_columns
    link_column := resolveLink table.columns opts.link_column
    menu_group := opts.menu_group }

/-- Lines 83-147, the body of the loop for one retained table: look the
options record up under the capitalized table name (an absent key is an
uncaught `KeyError`), then resolve the five fields. -/
def resolveTable (cfg : RawTableConfig) (table : DiscoveredTable) :
    Except PyError TableViewDescriptor :=
  match configLookup cfg (pyCapitalize table.tablename) with
  | none => .error (.keyError (pyCapitalize table.tablename))
  | some opts => .ok (resolvedDescriptor table opts)

/-- Lines 82-147: the loop over `found_tables`, appending one descriptor per
table; an uncaught exception aborts the loop. -/
def resolveFound (cfg : RawTableConfig) :
    List DiscoveredTable → Except PyError (List TableViewDescriptor)
  | [] => .ok []
  | t :: rest =>
      match resolveTable cfg t with
      | .error e => .error e
      | .ok d =>
          match resolveFound cfg rest with
          | .error e => .error e
          | .ok ds => .ok (d :: ds)

/-- Lines 75-149: the branch on `BASE_CONFIG is not None`. -/
def resolve :
    Option RawTableConfig → List DiscoveredTable →
      Except PyError (List AdminEntry)
  | none, tables => .ok (tables.map AdminEntry.plain)
  | some c, tables =>
      match resolveFound c (foundTables c tables) with
      | .error e => .error e
      | .ok ds => .ok (ds.map AdminEntry.config)

/-- Lines 151-155: rebind the table behind each entry to the given engine. -/
def bindToEngine (engine : Engine) (entry : AdminEntry) : AdminEntry :=
  match entry with
  | .plain t => .plain { t with db := engine }
  | .config d => .config { d with table := { d.table with db := engine } }

/-- Lines 75-155 as a whole: resolution followed by the engine-binding loop
over the result, with the application (Postgres) engine. -/
def resolveAdminTables (cfg : Option RawTableConfig)
    (tables : List DiscoveredTable) : Except PyError (List AdminEntry) :=
  match resolve cfg tables with
  | .error e => .error e
  | .ok entries => .ok (entries.map (bindToEngine Engine.application))

/-- The table handle behind an entry. -/
def AdminEntry.tableOf : AdminEntry → DiscoveredTable
  | .plain t => t
  | .config d => d.table

/-! Helper lemmas. -/

/-- A valid code point survives the round trip through `Char.ofNat`. -/
lemma char_toNat_ofNat (n : Nat) (h : n.isValidChar) :
    (Char.ofNat n).toNat = n := by
  rw [Char.ofNat, dif_pos h]
  simp [Char.ofNatAux, Char.toNat, UInt32.toNat]

/-- ASCII lower-casing of a character is idempotent. -/
lemma char_toLower_toLower (c : Char) : c.toLower.toLower = c.toLower := by
  simp only [Char.toLower]
  by_cases h : c.toNat ≥ 65 ∧ c.toNat ≤ 90
  · have hv : Nat.isValidChar (c.toNat + 32) := Or.inl (by omega)
    have ht : (Char.ofNat (c.toNat + 32)).toNat = c.toNat + 32 :=
      char_toNat_ofNat _ hv
    rw [if_pos h, if_neg (by rw [ht]; omega)]
  · rw [if_neg h, if_neg h]

/-- ASCII lower-casing of a string is idempotent. -/
lemma pyLower_pyLower (s : String) : pyLower (pyLower s) = pyLower s := by
  show String.mk ((s.toList.map Char.toLower).map Char.toLower)
      = String.mk (s.toList.map Char.toLower)
  rw [List.map_map]
  exact congrArg String.mk
    (List.map_congr_left (fun c _ => char_toLower_toLower c))

/-- ASCII upper-casing then lower-casing a character is plain
lower-casing. -/
lemma char_toLower_toUpper (c : Char) : c.toUpper.toLower = c.toLower := by
  by_cases h : c.toNat ≥ 97 ∧ c.toNat ≤ 122
  · have hu : c.toUpper = Char.ofNat (c.toNat - 32) := by
      simp only [Char.toUpper]
      rw [if_pos h]
    have hv : Nat.isValidChar (c.toNat - 32) := Or.inl (by omega)
    have ht : (Char.ofNat (c.toNat - 32)).toNat = c.toNat - 32 :=
      char_toNat_ofNat _ hv
    have hl : c.toLower = c := by
      simp only [Char.toLower]
      rw [if_neg (by omega)]
    rw [hu, hl]
    simp only [Char.toLower]
    rw [if_pos (by rw [ht]; omega), ht,
      show c.toNat - 32 + 32 = c.toNat from by omega, Char.ofNat_toNat]
  · have hu : c.toUpper = c := by
      simp only [Char.toUpper]
      rw [if_neg h]
    rw [hu]

/-- Capitalizing does not change the lower-cased form of a string. -/
lemma pyLower_pyCapitalize (s : String) :
    pyLower (pyCapitalize s) = pyLower s := by
  cases hs : s.toList with
  | nil =>
      show pyLower (match s.toList with
        | [] => ""
        | c :: cs => String.mk (c.toUpper :: cs.map Char.toLower)) = pyLower s
      rw [hs]
      unfold pyLower
      rw [hs]
      rfl
  | cons c cs =>
      show pyLower (match s.toList with
        | [] => ""
        | c :: cs => String.mk (c.toUpper :: cs.map Char.toLower)) = pyLower s
      rw [hs]
      unfold pyLower
      rw [hs]
      show String.mk ((c.toUpper :: cs.map Char.toLower).map Char.toLower)
          = String.mk ((c :: cs).map Char.toLower)
      simp only [List.map_cons, List.map_map]
      rw [char_toLower_toUpper]
      exact congrArg String.mk (congrArg (List.cons c.toLower)
        (List.map_congr_left (fun x _ => char_toLower_toLower x)))

/-- A string that occurs among the lowered configuration keys is already
lower-case. -/
lemma mem_tablesToShow_pyLower {c : RawTableConfig} {s : String}
    (h : s ∈ tablesToShow c) : pyLower s = s := by
  obtain ⟨p, _, hp⟩ := List.mem_map.1 h
  rw [← hp, pyLower_pyLower]

/-- A successfully resolved descriptor carries the table it was built from. -/
lemma resolveTable_table {cfg : RawTableConfig} {t : DiscoveredTable}
    {d : TableViewDescriptor} (h : resolveTable cfg t = .ok d) : d.table = t := by
  unfold resolveTable at h
  cases hl : configLookup cfg (pyCapitalize t.tablename) with
  | none => rw [hl] at h; exact absurd h (by simp)
  | some opts =>
      rw [hl] at h
      simp only [Except.ok.injEq] at h
      rw [← h]
      rfl

/-- A successful loop yields exactly one descriptor per input table, in
input order. -/
lemma resolveFound_tables {cfg : RawTableConfig} :
    ∀ {l : List DiscoveredTable} {ds : List TableViewDescriptor},
      resolveFound cfg l = .ok ds → ds.map TableViewDescriptor.table = l
  | [], ds, h => by
      simp only [resolveFound, Except.ok.injEq] at h
      rw [← h]; rfl
  | t :: rest, ds, h => by
      unfold resolveFound at h
      cases ht : resolveTable cfg t with
      | error e => rw [ht] at h; exact absurd h (by simp)
      | ok d =>
          rw [ht] at h
          cases hr : resolveFound cfg rest with
          | error e => rw [hr] at h; exact absurd h (by simp)
          | ok ds' =>
              rw [hr] at h
              simp only [Except.ok.injEq] at h
              rw [← h]
              simp only [List.map_cons, resolveTable_table ht,
                resolveFound_tables hr]

/-- A table in the filter result has its name among the lowered keys. -/
lemma mem_foundTables {cfg : RawTableConfig} {tables : List DiscoveredTable}
    {t : DiscoveredTable} (h : t ∈ foundTables cfg tables) :
    t ∈ tables ∧ t.tablename ∈ tablesToShow cfg := by
  have := List.mem_filter.1 h
  exact ⟨this.1, of_decide_eq_true this.2⟩

/-- Inversion of a successful run of the filtering branch. -/
lemma resolve_some_ok {c : RawTableConfig} {tables : List DiscoveredTable}
    {entries : List AdminEntry} (h : resolve (some c) tables = .ok entries) :
    ∃ ds, resolveFound c (foundTables c tables) = .ok ds ∧
      entries = ds.map AdminEntry.config := by
  simp only [resolve] at h
  cases hr : resolveFound c (foundTables c tables) with
  | error e => rw [hr] at h; simp at h
  | ok ds =>
      rw [hr] at h
      simp only [Except.ok.injEq] at h
      exact ⟨ds, rfl, h.symm⟩

/-- Successful per-table resolution, given the options-record lookup. -/
lemma resolveTable_of_lookup {cfg : RawTableConfig} {t : DiscoveredTable}
    {opts : OptionsRecord}
    (hlook : configLookup cfg (pyCapitalize t.tablename) = some opts) :
    resolveTable cfg t = Except.ok (resolvedDescriptor t opts) := by
  unfold resolveTable
  rw [hlook]

/-- An absent membership-list key resolves to the null field. -/
lemma resolveColumns_none (cols : List Column) :
    resolveColumns cols none = none := rfl

/-- An absent link key resolves to the null link column. -/
lemma resolveLink_none (cols : List Column) :
    resolveLink cols none = none := rfl

/-- A membership list matching no column resolves to the empty field. -/
lemma resolveColumns_no_match {cols : List Column} {ns : List String}
    (h : ∀ col ∈ cols, col.name ∉ ns) :
    resolveColumns cols (some ns) = some [] := by
  simp only [resolveColumns, Option.some.injEq]
  exact List.filter_eq_nil_iff.2 (fun col hc => by simpa using h col hc)

/-- A link name matching no column resolves to the null link column. -/
lemma resolveLink_no_match {cols : List Column} {n : String}
    (h : ∀ col ∈ cols, col.name ≠ n) : resolveLink cols (some n) = none := by
  simp only [resolveLink]
  rw [List.filter_eq_nil_iff.2 (fun col hc => by simpa using h col hc)]
  rfl

/-- With a match present, the first matching column in column order wins. -/
lemma resolveLink_first_match {pre post : List Column} {col : Column}
    {n : String} (hname : col.name = n) (hpre : ∀ c2 ∈ pre, c2.name ≠ n) :
    resolveLink (pre ++ col :: post) (some n) = some col := by
  simp only [resolveLink]
  rw [List.filter_append,
    List.filter_eq_nil_iff.2 (fun c2 hc => by simpa using hpre c2 hc),
    List.filter_cons_of_pos (by simpa using hname)]
  rfl

/-- Appending one entry with a different key leaves a lookup unchanged. -/
lemma configLookup_append_single {c : RawTableConfig} {kn : String}
    {ko : OptionsRecord} {key : String} (h : kn ≠ key) :
    configLookup (c ++ [(kn, ko)]) key = configLookup c key := by
  induction c with
  | nil => simp [configLookup, h]
  | cons p rest ih =>
      obtain ⟨k, v⟩ := p
      simp only [List.cons_append, configLookup]
      by_cases hp : k = key
      · rw [if_pos hp, if_pos hp]
      · rw [if_neg hp, if_neg hp]
        exact ih

/-- Two configurations giving the same options-record lookups give the same
loop result. -/
lemma resolveFound_congr {c c' : RawTableConfig} :
    ∀ {l : List DiscoveredTable},
      (∀ t ∈ l, configLookup c' (pyCapitalize t.tablename)
        = configLookup c (pyCapitalize t.tablename)) →
      resolveFound c' l = resolveFound c l
  | [], _ => rfl
  | t :: rest, h => by
      unfold resolveFound
      have hres : resolveTable c' t = resolveTable c t := by
        unfold resolveTable
        rw [h t (List.mem_cons_self t rest)]
      rw [hres,
        resolveFound_congr (fun t' ht' => h t' (List.mem_cons_of_mem _ ht'))]

/-- The loop succeeds on every list of tables whose capitalized names all
have an options record. -/
lemma resolveFound_ok_of_keyed {c : RawTableConfig} :
    ∀ {l : List DiscoveredTable},
      (∀ t ∈ l, (configLookup c (pyCapitalize t.tablename)).isSome) →
      ∃ ds, resolveFound c l = Except.ok ds
  | [], _ => ⟨[], rfl⟩
  | t :: rest, h => by
      obtain ⟨opts, hopts⟩ :=
        Option.isSome_iff_exists.1 (h t (List.mem_cons_self t rest))
      obtain ⟨ds, hds⟩ :=
        resolveFound_ok_of_keyed (fun t' ht' => h t' (List.mem_cons_of_mem _ ht'))
      refine ⟨resolvedDescriptor t opts :: ds, ?_⟩
      unfold resolveFound
      rw [resolveTable_of_lookup hopts, hds]

/-! Claim theorems. -/

/-- C1: when the raw table configuration is null, resolution returns every
discovered table unchanged and unwrapped: the output is exactly the input
sequence injected as bare entries, with no filtered table and no descriptor
constructed. -/
theorem C1_null_config_identity_passthrough (tables : List DiscoveredTable) :
    resolve none tables = Except.ok (tables.map AdminEntry.plain) ∧
    (tables.map AdminEntry.plain).map AdminEntry.tableOf = tables ∧
    ∀ e ∈ tables.map AdminEntry.plain, ∀ d, e ≠ AdminEntry.config d := by
  refine ⟨rfl, ?_, ?_⟩
  · rw [List.map_map]
    have hg : ∀ t ∈ tables,
        (AdminEntry.tableOf ∘ AdminEntry.plain) t = id t := fun t _ => rfl
    exact (List.map_congr_left hg).trans (List.map_id tables)
  · intro e he d
    obtain ⟨t, _, rfl⟩ := List.mem_map.1 he
    simp

/-- Witness for C1: one discovered table passes through as itself, with no
descriptor wrapping. -/
theorem C1_witness :
    resolve none [(⟨"orders", [⟨"id"⟩], Engine.auth⟩ : DiscoveredTable)]
      = Except.ok [AdminEntry.plain ⟨"orders", [⟨"id"⟩], Engine.auth⟩] :=
  (C1_null_config_identity_passthrough
    [⟨"orders", [⟨"id"⟩], Engine.auth⟩]).1

/-- C10: a present but empty table configuration (distinct from null) makes
the resolver output empty, both before and after engine binding: no
discovered table is passed through. -/
theorem C10_empty_config_yields_no_tables (tables : List DiscoveredTable) :
    resolve (some []) tables = Except.ok [] ∧
    resolveAdminTables (some []) tables = Except.ok [] := by
  have h1 : foundTables [] tables = [] := by
    simp [foundTables, tablesToShow]
  refine ⟨?_, ?_⟩ <;> simp [resolveAdminTables, resolve, h1, resolveFound]

/-- Witness for C10: an empty configuration mapping against one discovered
table yields the empty output. -/
theorem C10_witness :
    resolve (some []) [(⟨"orders", [⟨"id"⟩], Engine.auth⟩ : DiscoveredTable)]
      = Except.ok [] :=
  (C10_empty_config_yields_no_tables
    [⟨"orders", [⟨"id"⟩], Engine.auth⟩]).1

/-- C2: with a configuration present, a discovered table whose lower-cased
name does not occur among the lower-cased requested names never appears
behind any output entry; when no requested name matches any discovered
table, the resolver returns the empty list without error; and a requested
name matching no discovered table is silently dropped, leaving the result
exactly what it is without that name. -/
theorem C2_nonrequested_excluded_and_unmatched_dropped
    (c : RawTableConfig) (tables : List DiscoveredTable) :
    (∀ entries, resolve (some c) tables = Except.ok entries →
      ∀ t ∈ tables, pyLower t.tablename ∉ tablesToShow c →
        ∀ e ∈ entries, e.tableOf ≠ t) ∧
    ((∀ p ∈ c, pyLower p.1 ∉ tables.map DiscoveredTable.tablename) →
      resolve (some c) tables = Except.ok []) ∧
    (∀ kn ko, pyLower kn ∉ tables.map DiscoveredTable.tablename →
      resolve (some (c ++ [(kn, ko)])) tables = resolve (some c) tables) := by
  refine ⟨?_, ?_, ?_⟩
  · intro entries h t _ hlow e he
    obtain ⟨ds, hr, rfl⟩ := resolve_some_ok h
    obtain ⟨d, hd, rfl⟩ := List.mem_map.1 he
    intro hcontra
    have htab : d.table ∈ foundTables c tables := by
      rw [← resolveFound_tables hr]
      exact List.mem_map_of_mem _ hd
    have hmem := (mem_foundTables htab).2
    rw [show (AdminEntry.config d).tableOf = d.table from rfl] at hcontra
    rw [hcontra] at hmem
    exact hlow ((mem_tablesToShow_pyLower hmem).symm ▸ hmem)
  · intro hnone
    have h1 : foundTables c tables = [] := by
      apply List.filter_eq_nil_iff.2
      intro t ht
      simp only [decide_eq_true_eq]
      intro hmem
      obtain ⟨p, hp, hpe⟩ := List.mem_map.1 hmem
      exact hnone p hp
        (hpe.symm ▸ List.mem_map_of_mem DiscoveredTable.tablename ht)
    simp [resolve, h1, resolveFound]
  · intro kn ko hk
    have hfound : foundTables (c ++ [(kn, ko)]) tables
        = foundTables c tables := by
      apply List.filter_congr
      intro t ht
      simp only [tablesToShow, List.map_append, List.map_cons, List.map_nil,
        decide_eq_decide, List.mem_append, List.mem_singleton]
      constructor
      · rintro (h1 | h1)
        · exact h1
        · exact absurd
            (h1 ▸ List.mem_map_of_mem DiscoveredTable.tablename ht) hk
      · exact Or.inl
    have hfc : resolveFound (c ++ [(kn, ko)]) (foundTables c tables)
        = resolveFound c (foundTables c tables) := by
      apply resolveFound_congr
      intro t ht
      apply configLookup_append_single
      intro he
      apply hk
      have h1 : t.tablename ∈ tablesToShow c := (mem_foundTables ht).2
      have h2 : pyLower kn = t.tablename := by
        rw [he, pyLower_pyCapitalize, mem_tablesToShow_pyLower h1]
      rw [h2]
      exact List.mem_map_of_mem _ (mem_foundTables ht).1
    simp only [resolve, hfound, hfc]

/-- Witness for C2: a configuration requesting only `Customers` against a
single discovered table `orders` resolves to the empty list, silently and
without error; and appending the unmatched request `Ghost` to a matched
configuration leaves the result unchanged. -/
theorem C2_witness :
    resolve (some [("Customers", ⟨none, none, none, none, none⟩)])
        [⟨"orders", [⟨"id"⟩], Engine.auth⟩] = Except.ok [] ∧
    resolve (some ([("Orders", ⟨none, none, none, none, none⟩)]
          ++ [("Ghost", ⟨none, none, none, none, none⟩)]))
        [⟨"orders", [⟨"id"⟩], Engine.auth⟩]
      = resolve (some [("Orders", ⟨none, none, none, none, none⟩)])
        [⟨"orders", [⟨"id"⟩], Engine.auth⟩] :=
  ⟨(C2_nonrequested_excluded_and_unmatched_dropped
      [("Customers", ⟨none, none, none, none, none⟩)]
      [⟨"orders", [⟨"id"⟩], Engine.auth⟩]).2.1 (by decide),
   (C2_nonrequested_excluded_and_unmatched_dropped
      [("Orders", ⟨none, none, none, none, none⟩)]
      [⟨"orders", [⟨"id"⟩], Engine.auth⟩]).2.2 "Ghost"
      ⟨none, none, none, none, none⟩ (by decide)⟩

/-- C9: with a configuration present, the tables behind the output entries
are exactly the discovered tables that pass the name filter, in the
iteration order of the discovered-table collection (a sublist of it), not
in the order of the configuration keys. -/
theorem C9_output_order_follows_discovery (c : RawTableConfig)
    (tables : List DiscoveredTable) (entries : List AdminEntry)
    (h : resolve (some c) tables = Except.ok entries) :
    entries.map AdminEntry.tableOf = foundTables c tables ∧
    (entries.map AdminEntry.tableOf).Sublist tables := by
  obtain ⟨ds, hr, rfl⟩ := resolve_some_ok h
  have hm : (ds.map AdminEntry.config).map AdminEntry.tableOf
      = ds.map TableViewDescriptor.table := by
    rw [List.map_map]
    exact List.map_congr_left (fun d _ => rfl)
  rw [hm, resolveFound_tables hr]
  exact ⟨rfl, List.filter_sublist tables⟩

/-- Witness for C9: a concrete run with config keys in the order
`Customers`, `Orders` still lists the descriptors in discovery order
`orders`, `customers`. -/
theorem C9_witness :
    ([AdminEntry.config
        ⟨⟨"orders", [⟨"id"⟩], Engine.auth⟩, none, none, none, none, none⟩,
      AdminEntry.config
        ⟨⟨"customers", [⟨"id"⟩], Engine.auth⟩, none, none, none, none,
          none⟩].map AdminEntry.tableOf
      = foundTables
          [("Customers", ⟨none, none, none, none, none⟩),
           ("Orders", ⟨none, none, none, none, none⟩)]
          [⟨"orders", [⟨"id"⟩], Engine.auth⟩,
           ⟨"customers", [⟨"id"⟩], Engine.auth⟩]) ∧
    ([AdminEntry.config
        ⟨⟨"orders", [⟨"id"⟩], Engine.auth⟩, none, none, none, none, none⟩,
      AdminEntry.config
        ⟨⟨"customers", [⟨"id"⟩], Engine.auth⟩, none, none, none, none,
          none⟩].map AdminEntry.tableOf).Sublist
        [⟨"orders", [⟨"id"⟩], Engine.auth⟩,
         ⟨"customers", [⟨"id"⟩], Engine.auth⟩] :=
  C9_output_order_follows_discovery _ _ _ (by rfl)

/-- C4: for a retained table whose options record provides a
`visible_columns` list, the resolved field is exactly the table's columns
whose names occur in the list (membership in both directions), each exactly
once (the result has no duplicates when the table's columns are distinct),
in the table's native column order (a sublist of it), not in the configured
list's order. -/
theorem C4_visible_columns_exact_native_order (c : RawTableConfig)
    (t : DiscoveredTable) (opts : OptionsRecord) (names : List String)
    (hlook : configLookup c (pyCapitalize t.tablename) = some opts)
    (hvc : opts.visible_columns = some names)
    (hnodup : t.columns.Nodup) :
    resolveTable c t = Except.ok (resolvedDescriptor t opts) ∧
    (resolvedDescriptor t opts).visible_columns
      = some (t.columns.filter (fun col => decide (col.name ∈ names))) ∧
    (∀ col, col ∈ t.columns.filter (fun col => decide (col.name ∈ names)) ↔
      col ∈ t.columns ∧ col.name ∈ names) ∧
    (t.columns.filter (fun col => decide (col.name ∈ names))).Nodup ∧
    (t.columns.filter (fun col => decide (col.name ∈ names))).Sublist
      t.columns := by
  refine ⟨resolveTable_of_lookup hlook, ?_, ?_, hnodup.filter _,
    List.filter_sublist _⟩
  · show resolveColumns t.columns opts.visible_columns
      = some (t.columns.filter (fun col => decide (col.name ∈ names)))
    rw [hvc]
    rfl
  · intro col
    constructor
    · intro hm
      have := List.mem_filter.1 hm
      exact ⟨this.1, of_decide_eq_true this.2⟩
    · intro hm
      exact List.mem_filter.2 ⟨hm.1, decide_eq_true hm.2⟩

/-- Witness for C4: configured list `[total, id]` against columns
`id, total, created_at` resolves to `[id, total]`: native order, each
matching column once. -/
theorem C4_witness :
    resolveTable [("Orders", ⟨some ["total", "id"], none, none, none, none⟩)]
        ⟨"orders", [⟨"id"⟩, ⟨"total"⟩, ⟨"created_at"⟩], Engine.auth⟩
      = Except.ok (resolvedDescriptor
          ⟨"orders", [⟨"id"⟩, ⟨"total"⟩, ⟨"created_at"⟩], Engine.auth⟩
          ⟨some ["total", "id"], none, none, none, none⟩) ∧
    (resolvedDescriptor
        ⟨"orders", [⟨"id"⟩, ⟨"total"⟩, ⟨"created_at"⟩], Engine.auth⟩
        ⟨some ["total", "id"], none, none, none, none⟩).visible_columns
      = some [⟨"id"⟩, ⟨"total"⟩] :=
  ⟨(C4_visible_columns_exact_native_order
      [("Orders", ⟨some ["total", "id"], none, none, none, none⟩)]
      ⟨"orders", [⟨"id"⟩, ⟨"total"⟩, ⟨"created_at"⟩], Engine.auth⟩
      ⟨some ["total", "id"], none, none, none, none⟩
      ["total", "id"] rfl rfl (by decide)).1,
   (C4_visible_columns_exact_native_order
      [("Orders", ⟨some ["total", "id"], none, none, none, none⟩)]
      ⟨"orders", [⟨"id"⟩, ⟨"total"⟩, ⟨"created_at"⟩], Engine.auth⟩
      ⟨some ["total", "id"], none, none, none, none⟩
      ["total", "id"] rfl rfl (by decide)).2.1⟩

/-- C5: for each of the three membership-filter fields of a retained table,
an omitted key resolves the field to null, while a present key whose names
match no column resolves it to the empty list, with no error in either
case. -/
theorem C5_omitted_null_vs_unmatched_empty (c : RawTableConfig)
    (t : DiscoveredTable) (opts : OptionsRecord)
    (hlook : configLookup c (pyCapitalize t.tablename) = some opts) :
    resolveTable c t = Except.ok (resolvedDescriptor t opts) ∧
    (opts.visible_columns = none →
      (resolvedDescriptor t opts).visible_columns = none) ∧
    (∀ names, opts.visible_columns = some names →
      (∀ col ∈ t.columns, col.name ∉ names) →
      (resolvedDescriptor t opts).visible_columns = some []) ∧
    (opts.visible_filters = none →
      (resolvedDescriptor t opts).visible_filters = none) ∧
    (∀ names, opts.visible_filters = some names →
      (∀ col ∈ t.columns, col.name ∉ names) →
      (resolvedDescriptor t opts).visible_filters = some []) ∧
    (opts.rich_text_columns = none →
      (resolvedDescriptor t opts).rich_text_columns = none) ∧
    (∀ names, opts.rich_text_columns = some names →
      (∀ col ∈ t.columns, col.name ∉ names) →
      (resolvedDescriptor t opts).rich_text_columns = some []) := by
  refine ⟨resolveTable_of_lookup hlook, ?_, ?_, ?_, ?_, ?_, ?_⟩
  · intro hn
    show resolveColumns t.columns opts.visible_columns = none
    rw [hn]
    exact resolveColumns_none _
  · intro names hs hnone
    show resolveColumns t.columns opts.visible_columns = some []
    rw [hs]
    exact resolveColumns_no_match hnone
  · intro hn
    show resolveColumns t.columns opts.visible_filters = none
    rw [hn]
    exact resolveColumns_none _
  · intro names hs hnone
    show resolveColumns t.columns opts.visible_filters = some []
    rw [hs]
    exact resolveColumns_no_match hnone
  · intro hn
    show resolveColumns t.columns opts.rich_text_columns = none
    rw [hn]
    exact resolveColumns_none _
  · intro names hs hnone
    show resolveColumns t.columns opts.rich_text_columns = some []
    rw [hs]
    exact resolveColumns_no_match hnone

/-- Witness for C5: an omitted `visible_columns` key yields null while a
`visible_filters` list naming only a nonexistent column yields the empty
list. -/
theorem C5_witness :
    (resolvedDescriptor ⟨"orders", [⟨"id"⟩], Engine.auth⟩
        ⟨none, some ["ghost"], none, none, none⟩).visible_columns = none ∧
    (resolvedDescriptor ⟨"orders", [⟨"id"⟩], Engine.auth⟩
        ⟨none, some ["ghost"], none, none, none⟩).visible_filters
      = some [] :=
  ⟨(C5_omitted_null_vs_unmatched_empty
      [("Orders", ⟨none, some ["ghost"], none, none, none⟩)]
      ⟨"orders", [⟨"id"⟩], Engine.auth⟩
      ⟨none, some ["ghost"], none, none, none⟩ rfl).2.1 rfl,
   (C5_omitted_null_vs_unmatched_empty
      [("Orders", ⟨none, some ["ghost"], none, none, none⟩)]
      ⟨"orders", [⟨"id"⟩], Engine.auth⟩
      ⟨none, some ["ghost"], none, none, none⟩ rfl).2.2.2.2.1
      ["ghost"] rfl (by decide)⟩

/-- C6: the link column of a retained table resolves to null when the key
is absent or no column name matches, and to the first matching column in
the table's column order when a match exists; per-table resolution succeeds
(no exception) in all of these cases. -/
theorem C6_link_column_null_or_first_match (c : RawTableConfig)
    (t : DiscoveredTable) (opts : OptionsRecord)
    (hlook : configLookup c (pyCapitalize t.tablename) = some opts) :
    resolveTable c t = Except.ok (resolvedDescriptor t opts) ∧
    (opts.link_column = none →
      (resolvedDescriptor t opts).link_column = none) ∧
    (∀ n, opts.link_column = some n → (∀ col ∈ t.columns, col.name ≠ n) →
      (resolvedDescriptor t opts).link_column = none) ∧
    (∀ n pre col post, opts.link_column = some n →
      t.columns = pre ++ col :: post → col.name = n →
      (∀ c2 ∈ pre, c2.name ≠ n) →
      (resolvedDescriptor t opts).link_column = some col) := by
  refine ⟨resolveTable_of_lookup hlook, ?_, ?_, ?_⟩
  · intro hn
    show resolveLink t.columns opts.link_column = none
    rw [hn]
    exact resolveLink_none _
  · intro n hs hnone
    show resolveLink t.columns opts.link_column = none
    rw [hs]
    exact resolveLink_no_match hnone
  · intro n pre col post hs hcols hname hpre
    show resolveLink t.columns opts.link_column = some col
    rw [hs, hcols]
    exact resolveLink_first_match hname hpre

/-- Witness for C6: link name `total` against columns `id, total` resolves
to the `total` column, the first (and only) match in column order. -/
theorem C6_witness :
    (resolvedDescriptor ⟨"orders", [⟨"id"⟩, ⟨"total"⟩], Engine.auth⟩
        ⟨none, none, none, some "total", none⟩).link_column
      = some ⟨"total"⟩ :=
  (C6_link_column_null_or_first_match
      [("Orders", ⟨none, none, none, some "total", none⟩)]
      ⟨"orders", [⟨"id"⟩, ⟨"total"⟩], Engine.auth⟩
      ⟨none, none, none, some "total", none⟩ rfl).2.2.2
    "total" [⟨"id"⟩] ⟨"total"⟩ [] rfl rfl rfl (by decide)

/-- C7: on every successful run, every output entry's table is bound to the
application (Postgres) engine, never the auth (SQLite) engine, in both the
descriptor branch and the pass-through branch. -/
theorem C7_output_bound_to_application_engine (cfg : Option RawTableConfig)
    (tables : List DiscoveredTable) (entries : List AdminEntry)
    (h : resolveAdminTables cfg tables = Except.ok entries) :
    ∀ e ∈ entries, e.tableOf.db = Engine.application := by
  unfold resolveAdminTables at h
  cases hr : resolve cfg tables with
  | error e' => rw [hr] at h; simp at h
  | ok es =>
      rw [hr] at h
      simp only [Except.ok.injEq] at h
      subst h
      intro e he
      obtain ⟨e0, _, rfl⟩ := List.mem_map.1 he
      cases e0 <;> rfl

/-- Witness for C7: a pass-through table discovered with the auth binding
leaves resolution bound to the application engine. -/
theorem C7_witness :
    (AdminEntry.plain ⟨"orders", [⟨"id"⟩], Engine.application⟩).tableOf.db
      = Engine.application :=
  C7_output_bound_to_application_engine none
    [⟨"orders", [⟨"id"⟩], Engine.auth⟩]
    [AdminEntry.plain ⟨"orders", [⟨"id"⟩], Engine.application⟩] rfl
    (AdminEntry.plain ⟨"orders", [⟨"id"⟩], Engine.application⟩) (by simp)

/-- C3 as stated fails on the code: a retained table whose options record
is keyed `ORDERS` rather than `Orders` makes the resolver raise an
uncaught key-lookup error to the caller, because only `TypeError` and
`IndexError` are caught. -/
theorem C3_counterexample :
    resolve (some [("ORDERS", ⟨none, none, none, none, none⟩)])
        [⟨"orders", [⟨"id"⟩], Engine.auth⟩]
      = Except.error (PyError.keyError "Orders") := by
  rfl

/-- C3 amended: column-name lookup misses are recovered inside the
resolver, and no error reaches the caller, provided every retained table's
options record is keyed exactly by the table name with the first letter
capitalized. -/
theorem C3_amended_recovered_when_keyed (c : RawTableConfig)
    (tables : List DiscoveredTable)
    (h : ∀ t ∈ foundTables c tables,
      (configLookup c (pyCapitalize t.tablename)).isSome) :
    ∀ e, resolve (some c) tables ≠ Except.error e := by
  obtain ⟨ds, hds⟩ := resolveFound_ok_of_keyed h
  intro e
  simp [resolve, hds]

/-- Witness for C3 amended: with the options record keyed `Orders`, the
resolver does not raise even though the configured column names are
unknown. -/
theorem C3_amended_witness :
    resolve (some [("Orders",
        ⟨some ["ghost"], none, none, some "ghost", none⟩)])
        [⟨"orders", [⟨"id"⟩], Engine.auth⟩]
      ≠ Except.error (PyError.keyError "Orders") :=
  C3_amended_recovered_when_keyed
    [("Orders", ⟨some ["ghost"], none, none, some "ghost", none⟩)]
    [⟨"orders", [⟨"id"⟩], Engine.auth⟩] (by decide)
    (PyError.keyError "Orders")

/-- C8 as stated fails on the code: the engine-binding loop of lines
151-155 modifies the discovered table handles, so the routine is not free
of effects on its inputs; a table discovered under the auth binding comes
out with its binding overwritten. -/
theorem C8_counterexample :
    resolveAdminTables none [⟨"orders", [⟨"id"⟩], Engine.auth⟩]
      = Except.ok
          [AdminEntry.plain ⟨"orders", [⟨"id"⟩], Engine.application⟩] ∧
    (⟨"orders", [⟨"id"⟩], Engine.application⟩ : DiscoveredTable)
      ≠ ⟨"orders", [⟨"id"⟩], Engine.auth⟩ :=
  ⟨rfl, by decide⟩

/-- C8 amended: the filtering and descriptor construction of lines 75-149
is pure, carrying every input table into the output unchanged, and the
engine-binding post-step of lines 151-155 is the only mutation, changing
each table handle in nothing but its database-engine binding. -/
theorem C8_amended_pure_except_engine_binding (cfg : Option RawTableConfig)
    (tables : List DiscoveredTable) (entries : List AdminEntry)
    (h : resolve cfg tables = Except.ok entries) :
    (∀ e ∈ entries, e.tableOf ∈ tables) ∧
    (∀ e ∈ entries.map (bindToEngine Engine.application),
      ∃ t ∈ tables, e.tableOf = { t with db := Engine.application }) := by
  have h1 : ∀ e ∈ entries, e.tableOf ∈ tables := by
    cases cfg with
    | none =>
        simp only [resolve, Except.ok.injEq] at h
        subst h
        intro e he
        obtain ⟨t, ht, rfl⟩ := List.mem_map.1 he
        exact ht
    | some c =>
        obtain ⟨ds, hr, rfl⟩ := resolve_some_ok h
        intro e he
        obtain ⟨d, hd, rfl⟩ := List.mem_map.1 he
        have hmem : d.table ∈ foundTables c tables := by
          rw [← resolveFound_tables hr]
          exact List.mem_map_of_mem _ hd
        exact (mem_foundTables hmem).1
  refine ⟨h1, ?_⟩
  intro e he
  obtain ⟨e0, he0, rfl⟩ := List.mem_map.1 he
  refine ⟨e0.tableOf, h1 e0 he0, ?_⟩
  cases e0 <;> rfl

/-- Witness for C8 amended: resolution proper hands the discovered table
through as a member of the input, unmodified. -/
theorem C8_amended_witness :
    (AdminEntry.plain
        (⟨"orders", [⟨"id"⟩], Engine.auth⟩ : DiscoveredTable)).tableOf
      ∈ [(⟨"orders", [⟨"id"⟩], Engine.auth⟩ : DiscoveredTable)] :=
  (C8_amended_pure_except_engine_binding none
      [⟨"orders", [⟨"id"⟩], Engine.auth⟩]
      [AdminEntry.plain ⟨"orders", [⟨"id"⟩], Engine.auth⟩] rfl).1
    (AdminEntry.plain ⟨"orders", [⟨"id"⟩], Engine.auth⟩) (by simp)

end PiccoloAdminDocker
